import Mathlib

/-!
Verification development for the spectre-crawler repository.

The definitions below are a shallow embedding of `src/spectre_crawler.py`:

* the P2P session (`P2PNode.handshake`, `P2PNode.get_addresses`) is modelled
  as pure functions over the list of frames the remote peer sends on the
  bidirectional stream (a clean end of stream is the list running out; a
  stream error, such as a remote reset raised by the transport, is an
  optional trailing error marker);
* the per-peer driver coroutine (module-level `get_addresses`) is modelled by
  `outerGetAddresses`, with the geolocation HTTP service abstracted as an
  oracle mapping the index of each outbound request to its response;
* the frontier engine (`main`) is modelled as a transition system: a state
  carries the result map, the `seen` set, the `bad_ipstrs` list and the
  pending task multiset, and one step removes a completed task from `pending`
  and processes its outcome exactly as the body of the main loop does.

Machine integers do not occur (Python integers are unbounded); byte strings
are lists of naturals below 256.
-/

namespace SpectreCrawler

/-! ### Small string utilities (models of the Python primitives used) -/

/-- Decimal rendering of a natural number, as Python `str` produces for the
octets of an IPv4 address and for ports.  Fuel-based so that it reduces by
`decide`. -/
def natToStrAux : Nat → Nat → List Char
  | 0, _ => []
  | f + 1, n =>
    if n < 10 then [Char.ofNat (48 + n)]
    else natToStrAux f (n / 10) ++ [Char.ofNat (48 + n % 10)]

def natToStr (n : Nat) : String := String.mk (natToStrAux (n + 1) n)

/-- The apostrophe character, used by Python `repr` on strings. -/
def squote : Char := Char.ofNat 39

/-- Python `repr` of a string value that contains no quote or escape
characters (the only string error values the crawler produces are `""` and
`"timeout"`): the text surrounded by single quotes. -/
def pyReprStr (s : String) : String := String.mk (squote :: s.data ++ [squote])

/-- Python `s.split(":")`: splits at every colon; a string with `k` colons
yields `k + 1` parts. -/
def splitColon : List Char → List (List Char)
  | [] => [[]]
  | c :: cs =>
    if c = ':' then [] :: splitColon cs
    else
      match splitColon cs with
      | [] => [[c]]
      | p :: ps => (c :: p) :: ps

def splitColonS (s : String) : List String := (splitColon s.data).map String.mk

/-- Python `s.replace("ipv6:", "")`: removes every occurrence of the
substring, scanning left to right. -/
def replaceIpv6 : List Char → List Char
  | 'i' :: 'p' :: 'v' :: '6' :: ':' :: rest => replaceIpv6 rest
  | c :: rest => c :: replaceIpv6 rest
  | [] => []

/-- Python `s.strip("[]")`: removes leading and trailing characters drawn
from the set with the two bracket characters. -/
def stripBrackets (l : List Char) : List Char :=
  ((l.dropWhile fun c => c = '[' ∨ c = ']').reverse.dropWhile
    fun c => c = '[' ∨ c = ']').reverse

/-- Python `s.rsplit(":", 1)[0]`: everything before the last colon.  The
crawler only ever applies this to addresses of the form `host:port`, which
contain a colon; on a colon-free string the Python unpacking would raise, and
the model returns the string unchanged (that case is unreachable). -/
def rsplitHost (s : String) : String :=
  let parts := splitColonS s
  if parts.length ≤ 1 then s else String.intercalate ":" parts.dropLast

/-- Lowercase hex digit. -/
def hexDigitChar (n : Nat) : Char :=
  if n < 10 then Char.ofNat (48 + n) else Char.ofNat (87 + n)

def byteHex (n : Nat) : List Char := [hexDigitChar (n / 16 % 16), hexDigitChar (n % 16)]

/-- Python `bytes.hex()`. -/
def bytesHex (l : List Nat) : String := String.mk (l.foldr (fun b acc => byteHex b ++ acc) [])

/-! ### Wire model -/

/-- A `NetAddress` entry of an `addresses` frame: `(timestamp, ip bytes,
port)` exactly as the crawler destructures it. -/
structure NetAddress where
  timestamp : Int
  ip : List Nat
  port : Nat
deriving DecidableEq

/-- One frame of the bidirectional stream: the tagged union read through
`WhichOneof("payload")`.  Only the fields the crawler reads or writes are
modelled (`timestamp` and `network` of a `version` frame are never read from
incoming frames). -/
inductive Payload where
  | version (protocolVersion : Nat) (id : List Nat) (userAgent : String)
  | verack
  | ready
  | requestAddresses
  | addresses (addressList : List NetAddress)
  | other (tag : String)
deriving DecidableEq

def USER_AGENT : String := "/crawler:0.0.1/"

/-- The mutable session attributes of `P2PNode` that the handshake touches:
`peer_version` starts at `2`, `peer_id`/`peer_spectred` are unset until a
`version` frame arrives (`none` models both Python `None` and a missing
attribute), and `ID` is the random identity chosen in `__aenter__`. -/
structure NodeState where
  peer_version : Nat
  peer_id : Option (List Nat)
  peer_spectred : Option String
  ID : List Nat
deriving DecidableEq

def initNode (ourId : List Nat) : NodeState :=
  { peer_version := 2, peer_id := none, peer_spectred := none, ID := ourId }

/-- Result of running `P2PNode.handshake` against a stream: final session
state, frames put on the send queue, whether a `return` inside the loop was
reached (`Handshake done`), the frames left unconsumed, and the stream error
hit, if the iterator raised. -/
structure HsResult where
  state : NodeState
  sent : List Payload
  done : Bool
  rest : List Payload
  raised : Option String
deriving DecidableEq

/-- `P2PNode.handshake`: consume incoming frames; on `version` record the
peer identity and send our own `version`; on `verack` send a `verack` and
finish when the recorded protocol version is below 4; on `ready` send a
`ready` and finish; ignore everything else.  Running out of frames ends the
loop without a `Handshake done` (the Python coroutine just returns); a
trailing stream error is reported in `raised`. -/
def handshakeRun (st : NodeState) : List Payload → Option String → HsResult
  | [], te => { state := st, sent := [], done := false, rest := [], raised := te }
  | p :: rest, te =>
    match p with
    | .version v pid ua =>
      let st' : NodeState :=
        { peer_version := v, peer_id := some pid, peer_spectred := some ua, ID := st.ID }
      let r := handshakeRun st' rest te
      { r with sent := Payload.version v st.ID USER_AGENT :: r.sent }
    | .verack =>
      if st.peer_version < 4 then
        { state := st, sent := [Payload.verack], done := true, rest := rest, raised := none }
      else
        let r := handshakeRun st rest te
        { r with sent := Payload.verack :: r.sent }
    | .ready =>
      { state := st, sent := [Payload.ready], done := true, rest := rest, raised := none }
    | _ =>
      handshakeRun st rest te

/-- Result of one call of the method `P2PNode.get_addresses`. -/
structure MgaResult where
  result : Option (List NetAddress)
  sent : List Payload
  rest : List Payload
  raised : Option String
deriving DecidableEq

/-- The frame-consuming loop of `P2PNode.get_addresses`: return the list of
the first `addresses` frame; answer a `requestAddresses` frame with an empty
`addresses` frame and keep waiting; ignore other payloads.  Running out of
frames makes the method return `None` (clean end of stream) unless the
iterator raises. -/
def mgaLoop : List Payload → Option String → MgaResult
  | [], te => { result := none, sent := [], rest := [], raised := te }
  | p :: rest, te =>
    match p with
    | .addresses l => { result := some l, sent := [], rest := rest, raised := none }
    | .requestAddresses =>
      let r := mgaLoop rest te
      { r with sent := Payload.addresses [] :: r.sent }
    | _ => mgaLoop rest te

/-- `P2PNode.get_addresses`: put a `requestAddresses` frame on the send queue
and run the consuming loop. -/
def methodGetAddresses (frames : List Payload) (te : Option String) : MgaResult :=
  let r := mgaLoop frames te
  { r with sent := Payload.requestAddresses :: r.sent }

/-! ### Geolocation (`P2PNode.ipinfo`) -/

/-- One response of the ipgeolocation.io HTTP endpoint: a reply with a status
code and optional `latitude`/`longitude` fields, or a transport error
(`aiohttp.ClientError` / `asyncio.TimeoutError`). -/
inductive GeoResponse where
  | reply (status : Nat) (latitude longitude : Option String)
  | netError
deriving DecidableEq

/-- Host normalization at the top of `ipinfo`: take the part before the last
colon, remove every `ipv6:` occurrence, strip surrounding brackets. -/
def normalizeHost (address : String) : String :=
  String.mk (stripBrackets (replaceIpv6 (rsplitHost address).data))

/-- The start-address exemption of `ipinfo`: skip the lookup when a start
address was given (and is a non-empty, hence truthy, string) and the
normalized host equals the part of the start address before its first
colon. -/
def ipinfoExempt (address : String) (start_address : Option String) : Bool :=
  match start_address with
  | none => false
  | some sa => sa ≠ "" && normalizeHost address = (splitColonS sa).headD ""

/-- The retry loop of `ipinfo`.  `oracle k` is the response to the `k`-th
outbound HTTP request of the run; the result pairs the location string with
the total number of requests issued so far.  A non-200 reply or a transport
error consumes one retry; a 200 reply returns immediately, with the location
only when both fields are present; exhausted retries return the empty
location. -/
def ipinfoLoop (oracle : Nat → GeoResponse) : Nat → Nat → String × Nat
  | k, 0 => ("", k)
  | k, r + 1 =>
    match oracle k with
    | .reply status lat lon =>
      if status ≠ 200 then ipinfoLoop oracle (k + 1) r
      else
        match lat, lon with
        | some la, some lo => (la ++ "," ++ lo, k + 1)
        | _, _ => ("", k + 1)
    | .netError => ipinfoLoop oracle (k + 1) r

/-- `P2PNode.ipinfo`: the start-address exemption, then at most two request
attempts.  There is no cache of any kind in the crawler: every call that is
not exempt issues its own HTTP requests. -/
def ipinfo (address : String) (start_address : Option String)
    (oracle : Nat → GeoResponse) (k : Nat) : String × Nat :=
  if ipinfoExempt address start_address then ("", k) else ipinfoLoop oracle k 2

/-! ### The per-peer driver coroutine (module-level `get_addresses`) -/

/-- The error slot of the result tuple of the driver coroutine: a plain
string value (`""` on the exception-free path, `"timeout"` when a
`TimeoutError` was caught inside the task) or a caught exception object,
modelled by its class name and argument text so that its Python `repr` is
`name(args)`. -/
inductive TaskError where
  | tag (s : String)
  | exc (name args : String)
deriving DecidableEq

/-- What `main` would see from `repr(error)`. -/
def reprError : TaskError → String
  | .tag s => pyReprStr s
  | .exc n a => n ++ "(" ++ a ++ ")"

/-- State of the saturation loop after it stops: the accumulated address set,
the frames left on the stream, and the stream error if one was raised (it
propagates to the enclosing `except Exception`). -/
structure SatResult where
  addrs : List NetAddress
  rest : List Payload
  raised : Option String
deriving DecidableEq

/-- Python `set.update` over the triples of one `addresses` reply (insertion
keeps the first occurrence, duplicates are dropped). -/
def insertAddr (s : List NetAddress) (x : NetAddress) : List NetAddress :=
  if x ∈ s then s else s ++ [x]

def insertAll (s : List NetAddress) (l : List NetAddress) : List NetAddress :=
  l.foldl insertAddr s

/-- The saturation loop of the driver coroutine:
`while len(addresses) > prev_size or patience > 0`, decrementing `patience`
on a non-growing round and resetting it to 10 on growth, with one
`node.get_addresses()` round per iteration.  Fuel only bounds the number of
iterations; the loop itself always terminates because every round either
consumes stream frames or drains patience, and the fuel case returns what
was accumulated. -/
def satLoop (fuel : Nat) (addrs : List NetAddress) (prev_size patience : Int)
    (frames : List Payload) (te : Option String) : SatResult :=
  match fuel with
  | 0 => { addrs := addrs, rest := frames, raised := none }
  | fuel + 1 =>
    if prev_size < (addrs.length : Int) ∨ 0 < patience then
      let patience' : Int := if (addrs.length : Int) ≤ prev_size then patience - 1 else 10
      let r := methodGetAddresses frames te
      match r.raised with
      | some e => { addrs := addrs, rest := r.rest, raised := some e }
      | none =>
        let addrs' :=
          match r.result with
          | some l => insertAll addrs l
          | none => addrs
        satLoop fuel addrs' (addrs.length : Int) patience' r.rest te
    else { addrs := addrs, rest := frames, raised := none }

/-- The tuple returned by the driver coroutine
`(address, peer_id, peer_spectred, addresses, error, loc)`. -/
structure TaskReturn where
  address : String
  peer_id : String
  peer_spectred : String
  addresses : List NetAddress
  error : TaskError
  loc : String
deriving DecidableEq

/-- The module-level `get_addresses` coroutine for one peer.

* `channelReady = false` models the five-second `channel_ready` wait
  expiring: the raised `TimeoutError` is caught and the tuple carries
  `error = "timeout"` with the initial empty partial fields.
* Otherwise the handshake runs on the stream.  If the stream raised during
  the handshake, `except Exception` records the exception with empty
  partials.  If the handshake never saw a `version` frame, `peer_id` is
  still `None` and `node.peer_id.hex()` raises `AttributeError`, which is
  also caught with empty partials.
* Otherwise the saturation loop runs; a stream error inside it is caught
  with the partial `peer_id`, `peer_spectred` and the addresses collected so
  far; on the exception-free path `ipinfo` is consulted and the error slot
  is the empty string. -/
def outerGetAddresses (fuel : Nat) (ourId : List Nat) (address : String)
    (start_address : Option String) (oracle : Nat → GeoResponse)
    (channelReady : Bool) (frames : List Payload) (te : Option String) : TaskReturn :=
  if channelReady = false then
    { address := address, peer_id := "", peer_spectred := "", addresses := [],
      error := .tag "timeout", loc := "" }
  else
    let hs := handshakeRun (initNode ourId) frames te
    match hs.raised with
    | some e =>
      { address := address, peer_id := "", peer_spectred := "", addresses := [],
        error := .exc e "", loc := "" }
    | none =>
      match hs.state.peer_id, hs.state.peer_spectred with
      | some pid, some ua =>
        let sat := satLoop fuel [] (-1) 10 hs.rest te
        match sat.raised with
        | some e =>
          { address := address, peer_id := bytesHex pid, peer_spectred := ua,
            addresses := sat.addrs, error := .exc e "", loc := "" }
        | none =>
          { address := address, peer_id := bytesHex pid, peer_spectred := ua,
            addresses := sat.addrs, error := .tag "",
            loc := (ipinfo address start_address oracle 0).1 }
      | _, _ =>
        { address := address, peer_id := "", peer_spectred := "", addresses := [],
          error := .exc "AttributeError" "", loc := "" }

/-! ### IP parsing and filtering (stdlib `ipaddress` as used by `main`) -/

inductive IpAddr where
  | v4 (bytes : List Nat)
  | v6 (bytes : List Nat)
deriving DecidableEq

/-- `ipaddress.ip_address(packed_bytes)`: 4 octets give an `IPv4Address`, 16
an `IPv6Address`, anything else raises `ValueError`. -/
def parseIp (b : List Nat) : Option IpAddr :=
  if b.length = 4 then some (.v4 b)
  else if b.length = 16 then some (.v6 b)
  else none

def bytesToNat (l : List Nat) : Nat := l.foldl (fun acc x => acc * 256 + x) 0

/-- Membership of a `bits`-wide address `x` in the network `base/plen`. -/
def inNet (bits x base plen : Nat) : Bool :=
  x / 2 ^ (bits - plen) = base / 2 ^ (bits - plen)

def v4Lit (a b c d : Nat) : Nat := ((a * 256 + b) * 256 + c) * 256 + d

/-- The IPv4 private networks of CPython `ipaddress`
(`IPv4Address.is_private`). -/
def ipv4Priv (x : Nat) : Bool :=
  inNet 32 x (v4Lit 0 0 0 0) 8 ||
  inNet 32 x (v4Lit 10 0 0 0) 8 ||
  inNet 32 x (v4Lit 127 0 0 0) 8 ||
  inNet 32 x (v4Lit 169 254 0 0) 16 ||
  inNet 32 x (v4Lit 172 16 0 0) 12 ||
  inNet 32 x (v4Lit 192 0 0 0) 29 ||
  inNet 32 x (v4Lit 192 0 0 170) 31 ||
  inNet 32 x (v4Lit 192 0 2 0) 24 ||
  inNet 32 x (v4Lit 192 168 0 0) 16 ||
  inNet 32 x (v4Lit 198 18 0 0) 15 ||
  inNet 32 x (v4Lit 198 51 100 0) 24 ||
  inNet 32 x (v4Lit 203 0 113 0) 24 ||
  inNet 32 x (v4Lit 240 0 0 0) 4 ||
  inNet 32 x (v4Lit 255 255 255 255) 32

/-- The IPv6 private networks of CPython `ipaddress` (3.12 list):
`::1/128`, `::/128`, `::ffff:0:0/96`, `100::/64`, `2001::/23`,
`2001:db8::/32`, `fc00::/7`, `fe80::/10`. -/
def ipv6Priv (x : Nat) : Bool :=
  inNet 128 x 1 128 ||
  inNet 128 x 0 128 ||
  inNet 128 x (0xffff * 2 ^ 32) 96 ||
  inNet 128 x (0x100 * 2 ^ 112) 64 ||
  inNet 128 x (0x2001 * 2 ^ 112) 23 ||
  inNet 128 x (0x2001 * 2 ^ 112 + 0xdb8 * 2 ^ 96) 32 ||
  inNet 128 x (0xfc00 * 2 ^ 112) 7 ||
  inNet 128 x (0xfe80 * 2 ^ 112) 10

def IpAddr.isPrivate : IpAddr → Bool
  | .v4 b => ipv4Priv (bytesToNat b)
  | .v6 b => ipv6Priv (bytesToNat b)

def IpAddr.isLoopback : IpAddr → Bool
  | .v4 b => inNet 32 (bytesToNat b) (v4Lit 127 0 0 0) 8
  | .v6 b => bytesToNat b = 1

/-- Dotted-quad rendering of an IPv4 address, as Python `str` produces. -/
def v4Str (b : List Nat) : String := String.intercalate "." (b.map natToStr)

/-- Rendering of an IPv6 address inside the canonical form.  Python
compresses the address per RFC 5952; the model renders the sixteen octets as
plain hex.  Both renderings are injective on the octets, and no claim
depends on the exact IPv6 text. -/
def v6Str (b : List Nat) : String := bytesHex b

/-- The canonical address `main` builds: `f"ipv6:[{ip}]:{port}"` for IPv6 and
`f"{ip}:{port}"` for IPv4. -/
def canonicalAddr (ip : IpAddr) (port : Nat) : String :=
  match ip with
  | .v4 b => v4Str b ++ ":" ++ natToStr port
  | .v6 b => "ipv6:[" ++ v6Str b ++ "]:" ++ natToStr port

/-! ### The frontier engine (`main`) -/

/-- The per-peer record `main` installs in `res`. -/
structure PeerRecord where
  neighbors : List String
  id : String
  spectred : String
  error : String
  loc : String
deriving DecidableEq

/-- Insertion-ordered dictionary assignment `res[address] = record`. -/
def updateRes (res : List (String × PeerRecord)) (a : String) (r : PeerRecord) :
    List (String × PeerRecord) :=
  match res with
  | [] => [(a, r)]
  | (b, rb) :: rest => if b = a then (a, r) :: rest else (b, rb) :: updateRes rest a r

def lookupRes : List (String × PeerRecord) → String → Option PeerRecord
  | [], _ => none
  | (b, rb) :: rest, a => if b = a then some rb else lookupRes rest a

/-- The state threaded through the neighbor loop of `main`
(`for ts, ipstr, port in addresses`).  `spawned` is a ghost list recording
every address a task was ever created for, in order. -/
structure FoldSt where
  neighbors : List String
  bad : List String
  seen : List String
  pending : List String
  spawned : List String
deriving DecidableEq

/-- One iteration of the neighbor loop: skip known-bad ip byte strings;
parse the bytes (recording failures in `bad_ipstrs`); drop private and
loopback addresses; append the canonical address to the neighbor list; and
when it was never seen, add it to `seen` and spawn a task for it. -/
def processAddr (st : FoldSt) (na : NetAddress) : FoldSt :=
  if bytesHex na.ip ∈ st.bad then st
  else
    match parseIp na.ip with
    | none => { st with bad := st.bad ++ [bytesHex na.ip] }
    | some ip =>
      if ip.isPrivate || ip.isLoopback then st
      else
        let new_address := canonicalAddr ip na.port
        if new_address ∈ st.seen then
          { st with neighbors := st.neighbors ++ [new_address] }
        else
          { st with
            neighbors := st.neighbors ++ [new_address],
            seen := new_address :: st.seen,
            pending := st.pending ++ [new_address],
            spawned := st.spawned ++ [new_address] }

/-- State of the frontier engine.  `pending` holds the address of each
in-flight task; every task opens its session immediately, since no semaphore
is ever acquired around the session, so `pending` is also the set of
simultaneously open peer sessions. -/
structure CrawlState where
  res : List (String × PeerRecord)
  bad : List String
  seen : List String
  pending : List String
  spawned : List String
deriving DecidableEq

/-- What `task.result()` delivers for a finished task: the result tuple, the
`None` a cancelled task returns, or the `TimeoutError` the 120-second
`asyncio.wait_for` wrapper raises when the per-task budget elapsed. -/
inductive TaskOutcome where
  | completed (r : TaskReturn)
  | cancelledNone
  | timedOut
deriving DecidableEq

/-- The body of `for task in done` in `main` for one task.  A `None` result
and a `TimeoutError` are both skipped with `continue` and change nothing.  A
tuple installs `res[address]` with `error` replaced by `repr(error)` (the
guard `if error is not None` is always true, since the tuple error slot is a
string or an exception object) and then runs the neighbor loop. -/
def processDone (st : CrawlState) (outcome : TaskOutcome) : CrawlState :=
  match outcome with
  | .cancelledNone => st
  | .timedOut => st
  | .completed r =>
    let f0 : FoldSt :=
      { neighbors := [], bad := st.bad, seen := st.seen,
        pending := st.pending, spawned := st.spawned }
    let f := r.addresses.foldl processAddr f0
    let rec0 : PeerRecord :=
      { neighbors := f.neighbors, id := r.peer_id, spectred := r.peer_spectred,
        error := reprError r.error, loc := r.loc }
    { res := updateRes st.res r.address rec0, bad := f.bad, seen := f.seen,
      pending := f.pending, spawned := f.spawned }

def seedKeys (seeds : List (String × String)) : List String :=
  seeds.map fun p => p.1 ++ ":" ++ p.2

/-- The state of `main` right after spawning the seed tasks: one task per
seed, `seen` EMPTY (seed addresses are never added to it), nothing bad, no
results. -/
def initCrawl (seeds : List (String × String)) : CrawlState :=
  { res := [], bad := [], seen := [], pending := seedKeys seeds,
    spawned := seedKeys seeds }

/-- `asyncio.wait` hands one completed task back: it leaves `pending` and its
outcome is processed by the loop body. -/
def stepMain (st : CrawlState) (a : String) (outcome : TaskOutcome) : CrawlState :=
  processDone { st with pending := st.pending.erase a } outcome

/-- The crawl states reachable during a run of `main` from the given seeds:
repeatedly a pending task finishes with some outcome and the loop body
processes it. -/
inductive Reachable (seeds : List (String × String)) : CrawlState → Prop where
  | init : Reachable seeds (initCrawl seeds)
  | step (st : CrawlState) (a : String) (outcome : TaskOutcome) :
      Reachable seeds st → a ∈ st.pending → Reachable seeds (stepMain st a outcome)

/-- The parallelism cap of `main`: on Windows 100, otherwise
`max(soft_fd_limit - 20, 1)`.  Computed, logged, and used to size a
semaphore that is never acquired around any session. -/
def parallelismCap (isWindows : Bool) (softLimit : Int) : Int :=
  if isWindows then 100 else max (softLimit - 20) 1

/-! ### Snapshot writing (end of `main`) -/

/-- A persisted record: a `PeerRecord` with the `neighbors` key deleted. -/
structure StoredRecord where
  id : String
  spectred : String
  error : String
  loc : String
deriving DecidableEq

def stripNeighbors (r : PeerRecord) : StoredRecord :=
  { id := r.id, spectred := r.spectred, error := r.error, loc := r.loc }

/-- The `clean_res` loop: keep exactly the records whose neighbor list is
non-empty and delete their `neighbors` key. -/
def cleanRes (res : List (String × PeerRecord)) : List (String × StoredRecord) :=
  res.filterMap fun p =>
    if p.2.neighbors.isEmpty then none else some (p.1, stripNeighbors p.2)

structure Snapshot where
  nodes : List (String × StoredRecord)
  updated_at : Int
deriving DecidableEq

/-- The guarded write at the end of `main`: dump the snapshot only when at
least 10 records survive the cleaning; `none` models that no write happened
and the previously persisted file is untouched. -/
def writeSnapshot (res : List (String × PeerRecord)) (now : Int) : Option Snapshot :=
  if 10 ≤ (cleanRes res).length then some { nodes := cleanRes res, updated_at := now }
  else none

/-! ### Seed parsing (`__main__`) -/

def countColon (s : String) : Nat := s.data.count ':'

/-- `hostpair = args.addr.split(":") if ":" in args.addr else (args.addr, "18111")`. -/
def hostpair (addr : String) : List String :=
  if ':' ∈ addr.data then splitColonS addr else [addr, "18111"]

/-- The unpacking `for address, port in addresses` applied to one seed: it
succeeds exactly on a two-element sequence and raises `ValueError`
otherwise. -/
def unpackSeedPair : List String → Option (String × String)
  | [h, p] => some (h, p)
  | _ => none

/-- Seed list the driver passes to `main` for a single `--addr` value:
`none` when the unpacking raises, so the crawl never starts. -/
def crawlSeeds (addr : String) : Option (List (String × String)) :=
  (unpackSeedPair (hostpair addr)).map fun p => [p]

/-! ### Concrete fixtures used by the counterexample and witness theorems -/

/-- A stream for a protocol-version-5 peer that completes the handshake and
serves one public address before the stream ends. -/
def c1Frames : List Payload :=
  [Payload.version 5 [171, 205] "/spectred:0.3.16/", Payload.verack, Payload.ready,
   Payload.addresses [{ timestamp := 0, ip := [1, 2, 3, 4], port := 18111 }]]

def c1Geo : Nat → GeoResponse := fun _ => GeoResponse.reply 200 (some "1.5") (some "2.5")

/-- The tuple the driver coroutine returns for `c1Frames`. -/
def c1Task : TaskReturn :=
  outerGetAddresses 20 [7] "9.9.9.9:18111" none c1Geo true c1Frames none

/-- A completed task whose peer served two public addresses. -/
def c2Task : TaskReturn :=
  { address := "9.9.9.9:18111", peer_id := "", peer_spectred := "",
    addresses := [{ timestamp := 0, ip := [1, 2, 3, 4], port := 18111 },
                  { timestamp := 0, ip := [5, 6, 7, 8], port := 18111 }],
    error := TaskError.tag "", loc := "" }

/-- A completed task whose peer served a third and a fourth public address. -/
def c2Task' : TaskReturn :=
  { address := "9.9.9.9:18111", peer_id := "", peer_spectred := "",
    addresses := [{ timestamp := 1, ip := [8, 8, 8, 8], port := 18111 },
                  { timestamp := 1, ip := [8, 8, 4, 4], port := 18111 }],
    error := TaskError.tag "", loc := "" }

/-- A completed seed task that rediscovers the seed address itself. -/
def c3Task : TaskReturn :=
  { address := "1.2.3.4:18111", peer_id := "", peer_spectred := "",
    addresses := [{ timestamp := 0, ip := [1, 2, 3, 4], port := 18111 }],
    error := TaskError.tag "", loc := "" }

/-- A completed seed task that discovers one fresh public address. -/
def c3Task' : TaskReturn :=
  { address := "7.7.7.7:18111", peer_id := "", peer_spectred := "",
    addresses := [{ timestamp := 0, ip := [1, 2, 3, 4], port := 18111 }],
    error := TaskError.tag "", loc := "" }

/-- A stream that completes the handshake, serves one address, and then
reaches a clean end of stream in the middle of the address exchange. -/
def c7Frames : List Payload :=
  [Payload.version 6 [16] "/spectred:0.3.15/", Payload.verack, Payload.ready,
   Payload.addresses [{ timestamp := 5, ip := [8, 8, 8, 8], port := 16111 }]]

def c7Geo : Nat → GeoResponse := fun _ => GeoResponse.reply 200 (some "7.0") (some "8.0")

def c8Geo : Nat → GeoResponse := fun _ => GeoResponse.reply 200 (some "1.0") (some "2.0")

/-! ### Helper lemmas -/

theorem lookupRes_updateRes (res : List (String × PeerRecord)) (a : String) (r : PeerRecord) :
    lookupRes (updateRes res a r) a = some r := by
  induction res with
  | nil => simp [updateRes, lookupRes]
  | cons p rest ih =>
    obtain ⟨b, rb⟩ := p
    by_cases h : b = a
    · simp [updateRes, lookupRes, h]
    · simp [updateRes, lookupRes, h, ih]

theorem reprError_ne_empty (e : TaskError) : reprError e ≠ "" := by
  intro h
  have hd := congrArg String.data h
  cases e with
  | tag s => simp [reprError, pyReprStr] at hd
  | exc n a => simp [reprError, String.data_append] at hd

theorem reprError_eq_quotes_iff (e : TaskError) :
    reprError e = pyReprStr "" ↔ e = TaskError.tag "" := by
  constructor
  · intro h
    cases e with
    | tag s =>
      have hd := congrArg String.data h
      simp only [reprError, pyReprStr] at hd
      have hs : s.data = [] := by simpa using hd
      have hs' : s = "" := String.ext (by simp [hs])
      simp [hs']
    | exc n a =>
      have hmem : '(' ∈ (reprError (TaskError.exc n a)).data := by
        simp [reprError, String.data_append]
      rw [h] at hmem
      exact absurd hmem (by decide)
  · intro h; subst h; rfl

theorem handshakeRun_raised_none (frames : List Payload) (st : NodeState) :
    (handshakeRun st frames none).raised = none := by
  induction frames generalizing st with
  | nil => simp [handshakeRun]
  | cons p rest ih =>
    cases p with
    | version v pid ua => simp [handshakeRun, ih]
    | verack =>
      by_cases h : st.peer_version < 4
      · simp [handshakeRun, h]
      · simp [handshakeRun, h, ih]
    | ready => simp [handshakeRun]
    | requestAddresses => simp [handshakeRun, ih]
    | addresses l => simp [handshakeRun, ih]
    | other t => simp [handshakeRun, ih]

theorem mgaLoop_raised_none (frames : List Payload) :
    (mgaLoop frames none).raised = none := by
  induction frames with
  | nil => simp [mgaLoop]
  | cons p rest ih =>
    cases p with
    | addresses l => simp [mgaLoop]
    | requestAddresses => simp [mgaLoop, ih]
    | version v pid ua => simp [mgaLoop, ih]
    | verack => simp [mgaLoop, ih]
    | ready => simp [mgaLoop, ih]
    | other t => simp [mgaLoop, ih]

theorem methodGetAddresses_raised_none (frames : List Payload) :
    (methodGetAddresses frames none).raised = none := by
  simp [methodGetAddresses, mgaLoop_raised_none]

theorem satLoop_raised_none (fuel : Nat) (addrs : List NetAddress) (prev_size patience : Int)
    (frames : List Payload) :
    (satLoop fuel addrs prev_size patience frames none).raised = none := by
  induction fuel generalizing addrs prev_size patience frames with
  | zero => simp [satLoop]
  | succ fuel ih =>
    rw [satLoop]
    by_cases h : prev_size < (addrs.length : Int) ∨ 0 < patience
    · simp only [h, if_true]
      rw [methodGetAddresses_raised_none]
      exact ih ..
    · simp [h]

theorem handshake_ge4_done_ready (frames : List Payload) (st : NodeState) (te : Option String)
    (h4 : 4 ≤ st.peer_version)
    (hall : ∀ w i u, Payload.version w i u ∈ frames → 4 ≤ w) :
    (handshakeRun st frames te).done = true →
    Payload.ready ∈ frames ∧ Payload.ready ∈ (handshakeRun st frames te).sent := by
  induction frames generalizing st with
  | nil => simp [handshakeRun]
  | cons p rest ih =>
    cases p with
    | version v pid ua =>
      intro hdone
      have hv : 4 ≤ v := hall v pid ua (List.mem_cons_self ..)
      have hrest : ∀ w i u, Payload.version w i u ∈ rest → 4 ≤ w := fun w i u hm =>
        hall w i u (List.mem_cons_of_mem _ hm)
      have hd' : (handshakeRun
          { peer_version := v, peer_id := some pid, peer_spectred := some ua, ID := st.ID }
          rest te).done = true := by
        simpa [handshakeRun] using hdone
      obtain ⟨hm, hs⟩ := ih _ hv hrest hd'
      exact ⟨List.mem_cons_of_mem _ hm, by simp [handshakeRun]; exact hs⟩
    | verack =>
      intro hdone
      have hnl : ¬ st.peer_version < 4 := by omega
      have hrest : ∀ w i u, Payload.version w i u ∈ rest → 4 ≤ w := fun w i u hm =>
        hall w i u (List.mem_cons_of_mem _ hm)
      have hd' : (handshakeRun st rest te).done = true := by
        simpa [handshakeRun, hnl] using hdone
      obtain ⟨hm, hs⟩ := ih st h4 hrest hd'
      exact ⟨List.mem_cons_of_mem _ hm, by simp [handshakeRun, hnl]; exact hs⟩
    | ready =>
      intro _
      exact ⟨List.mem_cons_self .., by simp [handshakeRun]⟩
    | requestAddresses =>
      intro hdone
      have hrest : ∀ w i u, Payload.version w i u ∈ rest → 4 ≤ w := fun w i u hm =>
        hall w i u (List.mem_cons_of_mem _ hm)
      have hd' : (handshakeRun st rest te).done = true := by simpa [handshakeRun] using hdone
      obtain ⟨hm, hs⟩ := ih st h4 hrest hd'
      exact ⟨List.mem_cons_of_mem _ hm, by simpa [handshakeRun] using hs⟩
    | addresses l =>
      intro hdone
      have hrest : ∀ w i u, Payload.version w i u ∈ rest → 4 ≤ w := fun w i u hm =>
        hall w i u (List.mem_cons_of_mem _ hm)
      have hd' : (handshakeRun st rest te).done = true := by simpa [handshakeRun] using hdone
      obtain ⟨hm, hs⟩ := ih st h4 hrest hd'
      exact ⟨List.mem_cons_of_mem _ hm, by simpa [handshakeRun] using hs⟩
    | other t =>
      intro hdone
      have hrest : ∀ w i u, Payload.version w i u ∈ rest → 4 ≤ w := fun w i u hm =>
        hall w i u (List.mem_cons_of_mem _ hm)
      have hd' : (handshakeRun st rest te).done = true := by simpa [handshakeRun] using hdone
      obtain ⟨hm, hs⟩ := ih st h4 hrest hd'
      exact ⟨List.mem_cons_of_mem _ hm, by simpa [handshakeRun] using hs⟩

theorem splitColon_ne_nil (l : List Char) : splitColon l ≠ [] := by
  cases l with
  | nil => simp [splitColon]
  | cons c cs =>
    rw [splitColon]
    by_cases h : c = ':'
    · simp [h]
    · simp only [h, if_false]
      cases splitColon cs <;> simp

theorem splitColon_length (l : List Char) :
    (splitColon l).length = l.count ':' + 1 := by
  induction l with
  | nil => simp [splitColon]
  | cons c cs ih =>
    rw [splitColon]
    by_cases h : c = ':'
    · simp [h, List.count_cons, ih]
    · simp only [h, if_false]
      rcases he : splitColon cs with _ | ⟨p, ps⟩
      · exact absurd he (splitColon_ne_nil cs)
      · have := ih
        rw [he] at this
        simp only [List.length_cons] at this ⊢
        simp [List.count_cons, h, this]

theorem unpackSeedPair_eq_none_of_length (l : List String) (h : l.length ≠ 2) :
    unpackSeedPair l = none := by
  match l with
  | [] => rfl
  | [_] => rfl
  | [_, _] => exact absurd rfl h
  | _ :: _ :: _ :: _ => rfl

/-- The `seen`/`spawned` accounting preserved by the neighbor loop: `seen`
never holds duplicates, and each address has been spawned once per occurrence
among the seed keys plus once more exactly when it entered `seen`. -/
def SpawnInv (base : List String) (seen spawned : List String) : Prop :=
  seen.Nodup ∧ ∀ a : String, spawned.count a = base.count a + (if a ∈ seen then 1 else 0)

theorem processAddr_spawnInv (base : List String) (f : FoldSt) (na : NetAddress)
    (h : SpawnInv base f.seen f.spawned) :
    SpawnInv base (processAddr f na).seen (processAddr f na).spawned := by
  by_cases hb : bytesHex na.ip ∈ f.bad
  · simpa [processAddr, hb] using h
  · rcases hpi : parseIp na.ip with _ | ip
    · simpa [processAddr, hb, hpi] using h
    · by_cases hp : (ip.isPrivate || ip.isLoopback) = true
      · simpa [processAddr, hb, hpi, hp] using h
      · by_cases hs : canonicalAddr ip na.port ∈ f.seen
        · simpa [processAddr, hb, hpi, hp, hs] using h
        · have e1 : (processAddr f na).seen = canonicalAddr ip na.port :: f.seen := by
            simp [processAddr, hb, hpi, hp, hs]
          have e2 : (processAddr f na).spawned = f.spawned ++ [canonicalAddr ip na.port] := by
            simp [processAddr, hb, hpi, hp, hs]
          obtain ⟨hnd, hcount⟩ := h
          rw [SpawnInv, e1, e2]
          refine ⟨List.nodup_cons.mpr ⟨hs, hnd⟩, fun a => ?_⟩
          rw [List.count_append, hcount a]
          by_cases ha : a = canonicalAddr ip na.port
          · subst ha
            simp [hs, List.count_cons]
          · simp [List.count_cons, ha, List.mem_cons]

theorem foldl_processAddr_spawnInv (base : List String) (l : List NetAddress) (f : FoldSt)
    (h : SpawnInv base f.seen f.spawned) :
    SpawnInv base (l.foldl processAddr f).seen (l.foldl processAddr f).spawned := by
  induction l generalizing f with
  | nil => simpa
  | cons na rest ih => exact ih _ (processAddr_spawnInv base f na h)

theorem cleanRes_eq_filter_map (res : List (String × PeerRecord)) :
    cleanRes res =
      (res.filter fun p => !p.2.neighbors.isEmpty).map fun p => (p.1, stripNeighbors p.2) := by
  induction res with
  | nil => rfl
  | cons p rest ih =>
    cases hn : p.2.neighbors.isEmpty with
    | true =>
      have h1 : cleanRes (p :: rest) = cleanRes rest := by
        simp only [cleanRes, List.filterMap_cons, hn, if_true]
      have h2 : (p :: rest).filter (fun q => !q.2.neighbors.isEmpty) =
          rest.filter (fun q => !q.2.neighbors.isEmpty) := by
        simp only [List.filter_cons, hn, Bool.not_true, if_neg]
        simp
      rw [h1, h2]
      exact ih
    | false =>
      have h1 : cleanRes (p :: rest) = (p.1, stripNeighbors p.2) :: cleanRes rest := by
        simp only [cleanRes, List.filterMap_cons, hn]
        rfl
      have h2 : (p :: rest).filter (fun q => !q.2.neighbors.isEmpty) =
          p :: rest.filter (fun q => !q.2.neighbors.isEmpty) := by
        simp only [List.filter_cons, hn, Bool.not_false, if_pos]
      rw [h1, h2, List.map_cons, ih]

theorem ipinfoLoop_requests (oracle : Nat → GeoResponse) (r k : Nat) :
    (ipinfoLoop oracle k r).2 ≤ k + r ∧ (0 < r → k < (ipinfoLoop oracle k r).2) := by
  induction r generalizing k with
  | zero => simp [ipinfoLoop]
  | succ r ih =>
    have hup : ∀ m : Nat, (ipinfoLoop oracle m r).2 ≤ m + r := fun m => (ih m).1
    have hlow : ∀ m : Nat, m ≤ (ipinfoLoop oracle m r).2 := by
      intro m
      rcases Nat.eq_zero_or_pos r with hr | hr
      · subst hr; simp [ipinfoLoop]
      · exact Nat.le_of_lt ((ih m).2 hr)
    rcases h : oracle k with ⟨status, lat, lon⟩ | _
    · by_cases hs : status ≠ 200
      · have he : ipinfoLoop oracle k (r + 1) = ipinfoLoop oracle (k + 1) r := by
          simp [ipinfoLoop, h, hs]
        rw [he]
        exact ⟨by have := hup (k + 1); omega, fun _ => by have := hlow (k + 1); omega⟩
      · rcases lat with _ | la <;> rcases lon with _ | lo <;>
          · have he : (ipinfoLoop oracle k (r + 1)).2 = k + 1 := by
              simp [ipinfoLoop, h, hs]
            rw [he]
            exact ⟨by omega, fun _ => by omega⟩
    · have he : ipinfoLoop oracle k (r + 1) = ipinfoLoop oracle (k + 1) r := by
        simp [ipinfoLoop, h]
      rw [he]
      exact ⟨by have := hup (k + 1); omega, fun _ => by have := hlow (k + 1); omega⟩

/-! ### Claim C1 -/

/-- C1, counterexample.  A peer that completes the handshake and serves a
non-empty address list in an exchange round is installed with
`error = repr("") = pyReprStr ""`, which is not the empty string: the guard
`if error is not None` in `main` is always true, so `repr` is applied even to
the success value, and the installed `error` field is never `""`. -/
theorem C1_counterexample :
    (handshakeRun (initNode [7]) c1Frames none).done = true ∧
    c1Task.addresses ≠ [] ∧ c1Task.error = TaskError.tag "" ∧
    lookupRes ((stepMain (initCrawl [("9.9.9.9", "18111")]) "9.9.9.9:18111"
        (TaskOutcome.completed c1Task)).res) "9.9.9.9:18111" =
      some { neighbors := ["1.2.3.4:18111"], id := "abcd", spectred := "/spectred:0.3.16/",
             error := pyReprStr "", loc := "1.5,2.5" } ∧
    pyReprStr "" ≠ "" := by
  decide

/-- C1, amended.  For every installed peer the `error` field is the Python
`repr` of the error value of the task tuple: it equals `pyReprStr ""` (the
two-quote string) exactly when the task finished without an exception —
regardless of whether any round returned a non-empty address list — and it is
never the empty string. -/
theorem C1_amended_error_normalization (st : CrawlState) (r : TaskReturn) :
    ∃ rec : PeerRecord,
      lookupRes ((processDone st (TaskOutcome.completed r)).res) r.address = some rec ∧
      rec.error = reprError r.error ∧ rec.error ≠ "" ∧
      (rec.error = pyReprStr "" ↔ r.error = TaskError.tag "") := by
  refine ⟨_, lookupRes_updateRes st.res r.address _, rfl, reprError_ne_empty r.error,
    reprError_eq_quotes_iff r.error⟩

/-! ### Claim C2 -/

/-- C2, counterexample.  With a file-descriptor soft limit of 21 the cap is
`P = max(21 - 20, 1) = 1`, yet after the single seed task completes with two
public neighbors the frontier holds two in-flight tasks: the semaphore sized
to `P` is never acquired around a session, so the cap is not enforced. -/
theorem C2_counterexample :
    parallelismCap false 21 = 1 ∧
    Reachable [("9.9.9.9", "18111")]
      (stepMain (initCrawl [("9.9.9.9", "18111")]) "9.9.9.9:18111"
        (TaskOutcome.completed c2Task)) ∧
    2 ≤ (stepMain (initCrawl [("9.9.9.9", "18111")]) "9.9.9.9:18111"
        (TaskOutcome.completed c2Task)).pending.length := by
  exact ⟨by decide, Reachable.step _ _ _ Reachable.init (by decide), by decide⟩

/-- C2, amended.  The engine computes `P` and creates a semaphore of that
capacity but never acquires it when opening peer sessions; tasks are spawned
eagerly for every seed and for every newly discovered address, so the number
of simultaneously in-flight sessions is not bounded by `P`: a crawl can reach
a state whose pending set is strictly larger than the cap. -/
theorem C2_amended_cap_not_enforced :
    ∃ st : CrawlState, Reachable [("9.9.9.9", "18111")] st ∧
      parallelismCap false 21 < (st.pending.length : Int) := by
  refine ⟨stepMain (initCrawl [("9.9.9.9", "18111")]) "9.9.9.9:18111"
      (TaskOutcome.completed c2Task'), Reachable.step _ _ _ Reachable.init (by decide), by decide⟩

/-! ### Claim C3 -/

/-- C3, counterexample.  Seed addresses are spawned without ever being added
to `seen`; when the seed address is later rediscovered as a neighbor it is
spawned a second time, so a crawl reaches a state in which the seed address
has two spawned tasks, and already at initialization the enqueued seed is
missing from `seen`. -/
theorem C3_counterexample :
    Reachable [("1.2.3.4", "18111")]
      (stepMain (initCrawl [("1.2.3.4", "18111")]) "1.2.3.4:18111"
        (TaskOutcome.completed c3Task)) ∧
    (stepMain (initCrawl [("1.2.3.4", "18111")]) "1.2.3.4:18111"
        (TaskOutcome.completed c3Task)).spawned.count "1.2.3.4:18111" = 2 ∧
    "1.2.3.4:18111" ∈ (initCrawl [("1.2.3.4", "18111")]).spawned ∧
    "1.2.3.4:18111" ∉ (initCrawl [("1.2.3.4", "18111")]).seen := by
  exact ⟨Reachable.step _ _ _ Reachable.init (by decide), by decide, by decide, by decide⟩

/-- C3, amended.  In every reachable crawl state `seen` is duplicate-free and
each canonical address has been spawned exactly once per occurrence among the
seed keys, plus exactly one additional time when (and only when) it entered
`seen` as a discovered address: deduplication holds for discovered addresses,
while seeds are never entered into `seen` and can be respawned once when
rediscovered. -/
theorem C3_amended_discovered_dedup (seeds : List (String × String)) (st : CrawlState)
    (h : Reachable seeds st) :
    st.seen.Nodup ∧
    ∀ a : String, st.spawned.count a =
      (seedKeys seeds).count a + (if a ∈ st.seen then 1 else 0) := by
  induction h with
  | init =>
    refine ⟨List.nodup_nil, fun a => ?_⟩
    simp [initCrawl]
  | step st a outcome hr hmem ih =>
    cases outcome with
    | cancelledNone => exact ih
    | timedOut => exact ih
    | completed r => exact foldl_processAddr_spawnInv (seedKeys seeds) r.addresses _ ih

/-- C3, witness for the amended theorem at a concrete reachable state: after
the seed `7.7.7.7:18111` discovers `1.2.3.4:18111`, the discovered address
sits in `seen` and has exactly one spawned task. -/
theorem C3_amended_discovered_dedup_witness :
    (stepMain (initCrawl [("7.7.7.7", "18111")]) "7.7.7.7:18111"
        (TaskOutcome.completed c3Task')).seen.Nodup ∧
    (stepMain (initCrawl [("7.7.7.7", "18111")]) "7.7.7.7:18111"
        (TaskOutcome.completed c3Task')).spawned.count "1.2.3.4:18111" =
      (seedKeys [("7.7.7.7", "18111")]).count "1.2.3.4:18111" +
        (if "1.2.3.4:18111" ∈ (stepMain (initCrawl [("7.7.7.7", "18111")]) "7.7.7.7:18111"
            (TaskOutcome.completed c3Task')).seen then 1 else 0) := by
  have hr : Reachable [("7.7.7.7", "18111")]
      (stepMain (initCrawl [("7.7.7.7", "18111")]) "7.7.7.7:18111"
        (TaskOutcome.completed c3Task')) :=
    Reachable.step (initCrawl [("7.7.7.7", "18111")]) "7.7.7.7:18111"
      (TaskOutcome.completed c3Task') Reachable.init (by decide)
  have h := C3_amended_discovered_dedup _ _ hr
  exact ⟨h.1, h.2 "1.2.3.4:18111"⟩

/-! ### Claim C4 -/

/-- C4, counterexample.  When the 120-second `asyncio.wait_for` wrapper of a
recursively-spawned task raises, `main` catches the `TimeoutError` and skips
the task with `continue`: no PeerRecord at all is installed for the address,
in particular none with error `"timeout"`. -/
theorem C4_counterexample :
    (stepMain (initCrawl [("9.9.9.9", "18111")]) "9.9.9.9:18111" TaskOutcome.timedOut).res
      = [] ∧
    lookupRes ((stepMain (initCrawl [("9.9.9.9", "18111")]) "9.9.9.9:18111"
        TaskOutcome.timedOut).res) "9.9.9.9:18111" = none := by
  exact ⟨rfl, rfl⟩

/-- C4, amended.  A task whose 120-second budget elapses is skipped and the
result map is unchanged; a record whose error is `repr("timeout")` is
installed only when a `TimeoutError` is raised inside the task itself — the
five-second channel-ready wait — in which case the installed error field is
the quoted string `pyReprStr "timeout"`. -/
theorem C4_amended_timeout_handling :
    (∀ (st : CrawlState) (a : String), (stepMain st a TaskOutcome.timedOut).res = st.res) ∧
    (∀ (st : CrawlState) (a : String) (fuel : Nat) (ourId : List Nat) (address : String)
        (start : Option String) (oracle : Nat → GeoResponse) (frames : List Payload)
        (te : Option String),
      ∃ rec : PeerRecord,
        lookupRes ((stepMain st a (TaskOutcome.completed
            (outerGetAddresses fuel ourId address start oracle false frames te))).res) address
          = some rec ∧
        rec.error = pyReprStr "timeout") := by
  constructor
  · intro st a; rfl
  · intro st a fuel ourId address start oracle frames te
    exact ⟨_, lookupRes_updateRes _ address _, rfl⟩

/-! ### Claim C5 -/

/-- C5.  A peer advertising protocol version below 4 completes the handshake
at the `verack` exchange: the whole run consumes exactly the `version` and
`verack` frames, sends our `version` and a `verack` and no `ready` frame.  A
peer advertising version at least 4 with a `version`→`verack`→`ready` reply
completes only at the `ready` frame, emitting the `ready` reply; and for any
continuation whose `version` frames all advertise at least 4, completion of
the handshake implies a `ready` frame was received and the `ready` reply was
sent. -/
theorem C5_handshake_protocol_split :
    (∀ (ourId pid : List Nat) (v : Nat) (ua : String) (rest : List Payload), v < 4 →
      handshakeRun (initNode ourId) (Payload.version v pid ua :: Payload.verack :: rest) none =
        { state := { peer_version := v, peer_id := some pid, peer_spectred := some ua,
                     ID := ourId },
          sent := [Payload.version v ourId USER_AGENT, Payload.verack],
          done := true, rest := rest, raised := none }) ∧
    (∀ (ourId pid : List Nat) (v : Nat) (ua : String) (rest : List Payload), 4 ≤ v →
      handshakeRun (initNode ourId)
          (Payload.version v pid ua :: Payload.verack :: Payload.ready :: rest) none =
        { state := { peer_version := v, peer_id := some pid, peer_spectred := some ua,
                     ID := ourId },
          sent := [Payload.version v ourId USER_AGENT, Payload.verack, Payload.ready],
          done := true, rest := rest, raised := none }) ∧
    (∀ (ourId pid : List Nat) (v : Nat) (ua : String) (frames : List Payload), 4 ≤ v →
      (∀ (w : Nat) (i : List Nat) (u : String), Payload.version w i u ∈ frames → 4 ≤ w) →
      (handshakeRun (initNode ourId) (Payload.version v pid ua :: frames) none).done = true →
      Payload.ready ∈ frames ∧
        Payload.ready ∈
          (handshakeRun (initNode ourId) (Payload.version v pid ua :: frames) none).sent) := by
  refine ⟨?_, ?_, ?_⟩
  · intro ourId pid v ua rest hv
    simp [handshakeRun, initNode, hv]
  · intro ourId pid v ua rest hv
    have hnl : ¬ v < 4 := by omega
    simp [handshakeRun, initNode, hnl]
  · intro ourId pid v ua frames hv hall hdone
    have hd' : (handshakeRun
        { peer_version := v, peer_id := some pid, peer_spectred := some ua, ID := ourId }
        frames none).done = true := by
      simpa [handshakeRun, initNode] using hdone
    obtain ⟨hm, hs⟩ := handshake_ge4_done_ready frames _ none hv hall hd'
    exact ⟨hm, by simp [handshakeRun, initNode]; exact hs⟩

/-- C5, witness: a version-3 peer finishing at `verack`, a version-5 peer
finishing at `ready`, and the only-after direction instantiated on the
version-5 reply. -/
theorem C5_handshake_protocol_split_witness :
    (handshakeRun (initNode [1]) [Payload.version 3 [2] "old", Payload.verack] none =
      { state := { peer_version := 3, peer_id := some [2], peer_spectred := some "old",
                   ID := [1] },
        sent := [Payload.version 3 [1] USER_AGENT, Payload.verack],
        done := true, rest := [], raised := none }) ∧
    (handshakeRun (initNode [1])
        [Payload.version 5 [2] "new", Payload.verack, Payload.ready] none =
      { state := { peer_version := 5, peer_id := some [2], peer_spectred := some "new",
                   ID := [1] },
        sent := [Payload.version 5 [1] USER_AGENT, Payload.verack, Payload.ready],
        done := true, rest := [], raised := none }) ∧
    (Payload.ready ∈ [Payload.verack, Payload.ready] ∧
      Payload.ready ∈ (handshakeRun (initNode [1])
        (Payload.version 5 [2] "new" :: [Payload.verack, Payload.ready]) none).sent) := by
  refine ⟨C5_handshake_protocol_split.1 [1] [2] 3 "old" [] (by decide),
    C5_handshake_protocol_split.2.1 [1] [2] 5 "new" [] (by decide),
    C5_handshake_protocol_split.2.2 [1] [2] 5 "new" [Payload.verack, Payload.ready]
      (by decide) (fun w i u hm => ?_) (by decide)⟩
  simp at hm

/-! ### Claim C6 -/

/-- C6, counterexample.  A `verack` arriving in the initial state, before any
`version` frame, is not ignored: the session replies with a `verack` and,
because the default `peer_version` is 2 (below 4), the handshake completes on
that very frame. -/
theorem C6_counterexample :
    (handshakeRun (initNode []) [Payload.verack] none).done = true ∧
    (handshakeRun (initNode []) [Payload.verack] none).sent = [Payload.verack] := by
  decide

/-- C6, amended.  A `verack` received before any `version` frame is answered
with a `verack` reply and immediately completes the handshake (the initial
`peer_version` 2 is below 4); the session state is otherwise unchanged and
the remaining frames are left unconsumed. -/
theorem C6_amended_verack_in_init_completes (ourId : List Nat) (rest : List Payload)
    (te : Option String) :
    handshakeRun (initNode ourId) (Payload.verack :: rest) te =
      { state := initNode ourId, sent := [Payload.verack], done := true, rest := rest,
        raised := none } := by
  simp [handshakeRun, initNode]

/-! ### Claim C7 -/

/-- C7, counterexample.  A stream that reaches a clean end of stream in the
middle of the address exchange is not captured as a failure: after the
handshake and one served address the stream of `c7Frames` is exhausted, the
saturation loop drains its patience on `None` rounds, and the task returns
the success error value (the empty-string tag, installed as `repr("")`),
exactly as for a peer that kept serving. -/
theorem C7_counterexample :
    outerGetAddresses 20 [3] "8.8.8.8:16111" none c7Geo true c7Frames none =
      { address := "8.8.8.8:16111", peer_id := "10", peer_spectred := "/spectred:0.3.15/",
        addresses := [{ timestamp := 5, ip := [8, 8, 8, 8], port := 16111 }],
        error := TaskError.tag "", loc := "7.0,8.0" } ∧
    reprError (TaskError.tag "") = pyReprStr "" := by
  decide

/-- C7, amended.  A clean end of stream during the address exchange is
treated as saturation: whenever the handshake produced a peer id and user
agent and the stream holds no trailing error, the task returns the success
error value together with the partial `peer_id`, `user_agent` and whatever
addresses were collected.  Only a stream that raises (a remote reset) is
captured in the error slot, again with the partial peer data returned. -/
theorem C7_amended_eof_vs_reset :
    (∀ (fuel : Nat) (ourId pid : List Nat) (address : String) (start : Option String)
        (oracle : Nat → GeoResponse) (frames : List Payload) (ua : String),
      (handshakeRun (initNode ourId) frames none).state.peer_id = some pid →
      (handshakeRun (initNode ourId) frames none).state.peer_spectred = some ua →
      (outerGetAddresses fuel ourId address start oracle true frames none).error =
          TaskError.tag "" ∧
      (outerGetAddresses fuel ourId address start oracle true frames none).peer_id =
          bytesHex pid ∧
      (outerGetAddresses fuel ourId address start oracle true frames none).peer_spectred
          = ua) ∧
    (∀ (fuel : Nat) (ourId pid : List Nat) (address : String) (start : Option String)
        (oracle : Nat → GeoResponse) (v : Nat) (ua e : String), 4 ≤ v → 0 < fuel →
      outerGetAddresses fuel ourId address start oracle true
          [Payload.version v pid ua, Payload.verack, Payload.ready] (some e) =
        { address := address, peer_id := bytesHex pid, peer_spectred := ua,
          addresses := [], error := TaskError.exc e "", loc := "" }) := by
  constructor
  · intro fuel ourId pid address start oracle frames ua h1 h2
    have hraised := handshakeRun_raised_none frames (initNode ourId)
    have hsat := satLoop_raised_none fuel [] (-1) 10
      (handshakeRun (initNode ourId) frames none).rest
    simp [outerGetAddresses, hraised, h1, h2, hsat]
  · intro fuel ourId pid address start oracle v ua e h4 hf
    have hnl : ¬ v < 4 := by omega
    obtain ⟨fuel, rfl⟩ : ∃ k, fuel = k + 1 := ⟨fuel - 1, by omega⟩
    simp [outerGetAddresses, handshakeRun, hnl, satLoop, methodGetAddresses, mgaLoop]

/-- C7, witness: the first part applied to the `c1Frames` session (clean end
of stream, success error value), the second to a version-5 peer whose stream
raises right after the handshake. -/
theorem C7_amended_eof_vs_reset_witness :
    ((outerGetAddresses 20 [7] "9.9.9.9:18111" none c1Geo true c1Frames none).error =
        TaskError.tag "" ∧
      (outerGetAddresses 20 [7] "9.9.9.9:18111" none c1Geo true c1Frames none).peer_id =
        bytesHex [171, 205] ∧
      (outerGetAddresses 20 [7] "9.9.9.9:18111" none c1Geo true c1Frames none).peer_spectred
        = "/spectred:0.3.16/") ∧
    outerGetAddresses 1 [7] "9.9.9.9:18111" none c1Geo true
        [Payload.version 5 [2] "x", Payload.verack, Payload.ready] (some "AioRpcError") =
      { address := "9.9.9.9:18111", peer_id := bytesHex [2], peer_spectred := "x",
        addresses := [], error := TaskError.exc "AioRpcError" "", loc := "" } := by
  exact ⟨C7_amended_eof_vs_reset.1 20 [7] [171, 205] "9.9.9.9:18111" none c1Geo c1Frames
      "/spectred:0.3.16/" (by decide) (by decide),
    C7_amended_eof_vs_reset.2 1 [7] [2] "9.9.9.9:18111" none c1Geo 5 "x" "AioRpcError"
      (by decide) (by decide)⟩

/-! ### Claim C8 -/

/-- C8, counterexample.  Two geolocation lookups of the same normalized host
within one run issue two outbound HTTP requests, not one: the crawler's
`ipinfo` has no cache whatsoever (the 8192-entry LRU lives only in the
out-of-scope web endpoint), so the second lookup hits the API again. -/
theorem C8_counterexample :
    ipinfo "5.6.7.8:18111" none c8Geo 0 = ("1.0,2.0", 1) ∧
    ipinfo "5.6.7.8:18111" none c8Geo 1 = ("1.0,2.0", 2) ∧
    (ipinfo "5.6.7.8:18111" none c8Geo 1).2 ≠ 1 := by
  decide

/-- C8, amended.  The crawler's geolocator is not memoized: every lookup of a
host that is not exempted by the start-address rule issues at least one and
at most two outbound HTTP requests of its own, regardless of how many
requests earlier lookups of the same host already made. -/
theorem C8_amended_no_cache (address : String) (start : Option String)
    (oracle : Nat → GeoResponse) (k : Nat) (h : ipinfoExempt address start = false) :
    k < (ipinfo address start oracle k).2 ∧ (ipinfo address start oracle k).2 ≤ k + 2 := by
  have hreq := ipinfoLoop_requests oracle 2 k
  simp only [ipinfo, h, Bool.false_eq_true, if_false]
  exact ⟨hreq.2 (by omega), hreq.1⟩

/-- C8, witness: a non-exempt host whose two request attempts both fail still
makes between one and two requests. -/
theorem C8_amended_no_cache_witness :
    ipinfoExempt "4.4.4.4:18111" none = false ∧
    (0 < (ipinfo "4.4.4.4:18111" none (fun _ => GeoResponse.netError) 0).2 ∧
      (ipinfo "4.4.4.4:18111" none (fun _ => GeoResponse.netError) 0).2 ≤ 0 + 2) := by
  exact ⟨by decide, C8_amended_no_cache "4.4.4.4:18111" none _ 0 (by decide)⟩

/-! ### Claim C9 -/

/-- C9.  The snapshot is written if and only if at least ten records survive
the cleaning (those whose neighbor list is non-empty), and when it is
written its node map consists of exactly those records with the `neighbors`
field stripped; below the threshold no write occurs, so the previously
persisted snapshot is untouched. -/
theorem C9_snapshot_write_threshold (res : List (String × PeerRecord)) (now : Int) :
    ((writeSnapshot res now).isSome ↔
      10 ≤ (res.filter fun p => !p.2.neighbors.isEmpty).length) ∧
    (writeSnapshot res now).map Snapshot.nodes =
      (if 10 ≤ (res.filter fun p => !p.2.neighbors.isEmpty).length then
        some ((res.filter fun p => !p.2.neighbors.isEmpty).map fun p =>
          (p.1, stripNeighbors p.2))
      else none) := by
  constructor
  · rw [writeSnapshot, cleanRes_eq_filter_map, List.length_map]
    by_cases h : 10 ≤ (res.filter fun p => !p.2.neighbors.isEmpty).length
    · simp [h]
    · simp [h]
  · rw [writeSnapshot, cleanRes_eq_filter_map, List.length_map]
    by_cases h : 10 ≤ (res.filter fun p => !p.2.neighbors.isEmpty).length
    · simp [h]
    · simp [h]

/-! ### Claim C10 -/

/-- C10.  A seed passed via `--addr` with two or more colons is split into
more than two components and the unpacking of the seed into a (host, port)
pair raises, so the crawl never starts; a seed with at most one colon is
accepted (a bare host gets the default port 18111). -/
theorem C10_seed_colon_parsing (addr : String) :
    (2 ≤ countColon addr → crawlSeeds addr = none) ∧
    (countColon addr ≤ 1 → (crawlSeeds addr).isSome = true) := by
  constructor
  · intro h2
    have hmem : ':' ∈ addr.data := by
      apply List.count_pos_iff.mp
      unfold countColon at h2
      omega
    have hlen : (splitColonS addr).length = countColon addr + 1 := by
      rw [splitColonS, List.length_map, splitColon_length]
      rfl
    rw [crawlSeeds, hostpair, if_pos hmem,
      unpackSeedPair_eq_none_of_length _ (by omega)]
    rfl
  · intro h1
    rcases Nat.eq_zero_or_pos (countColon addr) with h0 | hpos
    · have hnm : ':' ∉ addr.data := by
        intro hm
        have := List.count_pos_iff.mpr hm
        unfold countColon at h0
        omega
      rw [crawlSeeds, hostpair, if_neg hnm]
      rfl
    · have h1' : countColon addr = 1 := by omega
      have hmem : ':' ∈ addr.data := by
        apply List.count_pos_iff.mp
        unfold countColon at h1'
        omega
      have hlen : (splitColonS addr).length = 2 := by
        rw [splitColonS, List.length_map, splitColon_length]
        unfold countColon at h1'
        omega
      obtain ⟨x, y, hxy⟩ := List.length_eq_two.mp hlen
      rw [crawlSeeds, hostpair, if_pos hmem, hxy]
      rfl

/-- C10, witness: the bare IPv6 literal `::1` has two colons and is rejected
before the crawl starts, while `127.0.0.1:16111` has one colon and is
accepted. -/
theorem C10_seed_colon_parsing_witness :
    (2 ≤ countColon "::1" ∧ crawlSeeds "::1" = none) ∧
    (countColon "127.0.0.1:16111" ≤ 1 ∧ (crawlSeeds "127.0.0.1:16111").isSome = true) := by
  exact ⟨⟨by decide, (C10_seed_colon_parsing "::1").1 (by decide)⟩,
    ⟨by decide, (C10_seed_colon_parsing "127.0.0.1:16111").2 (by decide)⟩⟩

end SpectreCrawler
